import Mathlib

/-!
Verification of the IRVE data-cleaning pipeline
(utils/cleaning.py, utils/io.py, utils/geo.py, sections/data_processing.py).

Pandas cells are modelled by `PyVal` (absent/NaN, string, or number);
numbers are rationals, `Option` encodes column- and cell-level absence.
`pd.to_numeric(..., errors="coerce")` becomes `toNumeric`, which never
fails: unparseable values become `none`.
-/

namespace IRVE

/-- A raw cell value: absent (NaN/None), a string, or a number. -/
inductive PyVal where
  | na : PyVal
  | str (s : String) : PyVal
  | num (q : ℚ) : PyVal
deriving DecidableEq, Repr

/-- Decimal digits to a natural number. -/
def digitsToNat (l : List Char) : Nat :=
  l.foldl (fun n c => 10 * n + (c.toNat - 48)) 0

/-- Surrounding whitespace removed, on character lists. -/
def trimChars (l : List Char) : List Char :=
  ((l.dropWhile Char.isWhitespace).reverse.dropWhile Char.isWhitespace).reverse

/-- Numeric parse of a string: optional sign, integer part, optional
fractional part, surrounding whitespace ignored.  Models the grammar
`float()` accepts for plain decimals (scientific notation is not needed by
any value the pipeline meets); anything else parses to `none`. -/
def parseRat (s : String) : Option ℚ :=
  let t := trimChars s.data
  let core : ℚ × List Char :=
    match t with
    | '-' :: rest => (-1, rest)
    | '+' :: rest => (1, rest)
    | _ => (1, t)
  let ip := core.2.takeWhile (fun c => c ≠ '.')
  let rest := core.2.dropWhile (fun c => c ≠ '.')
  let fp : Option (List Char) :=
    match rest with
    | [] => some []
    | _ :: fpart => if fpart.isEmpty && ip.isEmpty then none else some fpart
  match fp with
  | none => none
  | some fpart =>
    if ip.all Char.isDigit && fpart.all Char.isDigit &&
        (!ip.isEmpty || !fpart.isEmpty) then
      some (core.1 * ((digitsToNat ip : ℚ) +
        (digitsToNat fpart : ℚ) / ((10 : ℚ) ^ fpart.length)))
    else none

/-- `pd.to_numeric(v, errors="coerce")` on one cell: numbers pass through,
strings are parsed, absent stays absent; never raises. -/
def toNumeric : PyVal → Option ℚ
  | .na => none
  | .num q => some q
  | .str s => parseRat s

/-- A numeric-or-NaN cell back into a `PyVal` column cell. -/
def numToPy : Option ℚ → PyVal
  | none => .na
  | some q => .num q

/-- `Series.fillna` on one cell: keep the first value when present,
otherwise take the second. -/
def fillna (a b : Option ℚ) : Option ℚ :=
  match a with
  | some x => some x
  | none => b

/-- `df["puissance_kw"] = pd.to_numeric(df["puissance_nominale"],
errors="coerce").clip(lower=0)` on one cell (utils/cleaning.py, step 3). -/
def puissance_kw_of (v : PyVal) : Option ℚ :=
  (toNumeric v).map (fun p => max 0 p)

/-- The power classifier `_bin` of `clean_irve` (utils/cleaning.py, step 3):
NaN is `inconnu`, then half-open bins at 7, 22, 49, 149 kW. -/
def binPuissance : Option ℚ → String
  | none => "inconnu"
  | some x =>
    if x ≤ 7 then "AC_lente"
    else if x ≤ 22 then "AC_standard"
    else if x ≤ 49 then "DC_moyenne"
    else if x ≤ 149 then "DC_rapide"
    else "DC_ultra"

/-! ## Outlier filter (sections/data_processing.py, "Outlier removal")

A row of the cleaned table carries the three columns the filter reads.
Absent cells are `none`; pandas comparisons with NaN are `False`, which the
`Option`-eating comparison helpers reproduce. -/

/-- The columns of `df_clean` read by the outlier filter. -/
structure CRow where
  puissance_kw : Option ℚ
  latitude : Option ℚ
  longitude : Option ℚ
deriving DecidableEq, Repr

/-- `Series.between(lo, hi, inclusive="both")` on one cell: a NaN cell
compares `False`. -/
def betweenCell (x : Option ℚ) (lo hi : ℚ) : Bool :=
  match x with
  | none => false
  | some v => decide (lo ≤ v) && decide (v ≤ hi)

/-- `df_clean["puissance_kw"] <= 400` on one cell (NaN compares `False`). -/
def powerLe400 (r : CRow) : Bool :=
  match r.puissance_kw with
  | none => false
  | some p => decide (p ≤ 400)

/-- `df_clean = df_clean[df_clean["puissance_kw"] <= 400]`
(sections/data_processing.py, power rule). -/
def filterPower (rows : List CRow) : List CRow :=
  rows.filter powerLe400

/-- `mask_geo = lat.between(-22, 52) & lon.between(-63, 55)` on one row
(sections/data_processing.py, geo rule). -/
def maskGeo (r : CRow) : Bool :=
  betweenCell r.latitude (-22) 52 && betweenCell r.longitude (-63) 55

/-- `df_clean = df_clean[mask_geo]` (sections/data_processing.py, geo rule). -/
def filterGeo (rows : List CRow) : List CRow :=
  rows.filter maskGeo

/-- The power rule as the spec words it: remove exactly the rows whose power
is strictly greater than 400; every other row (including absent power) is
retained.  Written from the spec, to be compared with `filterPower`. -/
def specPowerPass (r : CRow) : Bool :=
  match r.puissance_kw with
  | none => true
  | some p => !(decide (400 < p))

/-- The geo rule as the spec words it: a row with absent latitude or
longitude passes; a row with both present is removed exactly when it lies
outside the box.  Written from the spec, to be compared with `filterGeo`. -/
def specGeoPass (r : CRow) : Bool :=
  match r.latitude, r.longitude with
  | some la, some lo =>
      decide (-22 ≤ la) && decide (la ≤ 52) && decide (-63 ≤ lo) && decide (lo ≤ 55)
  | _, _ => true

/-! ## Column resolver `_first_col` (utils/io.py) -/

/-- Lowercasing via a character map (Python `str.lower` on the ASCII
names and keywords the pipeline compares). -/
def lowerData (s : String) : List Char := s.data.map Char.toLower

/-- Lowercasing returning a string. -/
def lowerStr (s : String) : String := String.mk (lowerData s)

/-- `needle` occurs as a contiguous run of `hay` starting at its head. -/
def listPrefixB : List Char → List Char → Bool
  | [], _ => true
  | _ :: _, [] => false
  | a :: as, b :: bs => a == b && listPrefixB as bs

/-- `needle` occurs as a contiguous run anywhere in `hay`: the loose
pattern `.*needle.*` of `_first_col` (the candidate lists hold no regex
metacharacters, so the pattern is plain containment). -/
def listInfixB (n : List Char) : List Char → Bool
  | [] => listPrefixB n []
  | c :: t => listPrefixB n (c :: t) || listInfixB n t

/-- Case-insensitive containment of `cand` in column name `c`:
`re.fullmatch(rf".*{cand}.*", c.lower())`. -/
def looseMatch (cand c : String) : Bool :=
  listInfixB cand.data (lowerData c)

/-- The dictionary `{c.lower(): c for c in df.columns}`: later columns
overwrite earlier ones sharing a lowercase form, so lookup returns the
last column whose lowercase form is the key. -/
def lowInsert (d : List (String × String)) (k v : String) : List (String × String) :=
  match d with
  | [] => [(k, v)]
  | (k', v') :: rest => if k' == k then (k, v) :: rest else (k', v') :: lowInsert rest k v

/-- Build the lowercase dictionary over the actual columns, in order. -/
def lowDict (columns : List String) : List (String × String) :=
  columns.foldl (fun d c => lowInsert d (lowerStr c) c) []

/-- Dictionary lookup (`cand in low` / `low[cand]`). -/
def dictFind (d : List (String × String)) (k : String) : Option String :=
  match d with
  | [] => none
  | (k', v) :: rest => if k' == k then some v else dictFind rest k

/-- The exact phase of `_first_col`: `for cand in candidates: if cand in
low: return low[cand]`. -/
def exactPhase (columns candidates : List String) : Option String :=
  match candidates with
  | [] => none
  | cand :: rest =>
    match dictFind (lowDict columns) cand with
    | some c => some c
    | none => exactPhase columns rest

/-- The loose phase of `_first_col`: `for c in df.columns: if any(
re.fullmatch(rf".*{cand}.*", c.lower()) for cand in candidates): return c`. -/
def loosePhase (columns candidates : List String) : Option String :=
  columns.find? (fun c => candidates.any (fun cand => looseMatch cand c))

/-- `_first_col(df, candidates)` (utils/io.py): exact phase, then loose
phase, else `None`. -/
def first_col (columns candidates : List String) : Option String :=
  match exactPhase columns candidates with
  | some c => some c
  | none => loosePhase columns candidates

/-- The resolver as the spec words it: (a) an exact case-insensitive match
returns the first match in actual-column order; (b) otherwise a loose
`.*candidate.*` match chosen in candidate priority order; (c) else absent.
Written from the spec, to be compared with `first_col`. -/
def specResolve (columns candidates : List String) : Option String :=
  match columns.find? (fun c => candidates.any (fun cand => lowerStr c == lowerStr cand)) with
  | some c => some c
  | none =>
    match candidates.findSome? (fun cand => columns.find? (fun c => looseMatch cand c)) with
    | some c => some c
    | none => none

/-! ## AC/DC derivation (utils/cleaning.py, step 4) -/

/-- `Series.str.contains("DC|CCS|Combo|CHAdeMO", case=False)` on one cell:
the lowercased text contains one of the four lowercased keywords. -/
def dcKeywordHit (s : String) : Bool :=
  listInfixB "dc".data (lowerData s) || listInfixB "ccs".data (lowerData s) ||
    listInfixB "combo".data (lowerData s) || listInfixB "chademo".data (lowerData s)

/-- The `is_dc` derivation of `clean_irve` for one record, with column
presence made explicit: when the `connecteur` column exists the keyword rule
runs with `na=False` (an absent cell yields `false`); otherwise, when the
`puissance_kw` column exists, `.ge(24)` runs (an absent cell yields
`false`); otherwise no `is_dc` column is created. -/
def is_dc_col (hasConnecteur hasPuissance : Bool) (conn : Option String)
    (pow : Option ℚ) : Option Bool :=
  if hasConnecteur then
    some (match conn with | some s => dcKeywordHit s | none => false)
  else if hasPuissance then
    some (match pow with | some p => decide (24 ≤ p) | none => false)
  else none

/-! ## Postal-code extraction (utils/geo.py and utils/cleaning.py)

`re.search(r"\b(\d{5})\b", str(adresse))`: the leftmost run of exactly five
digits with a word boundary on each side.  Word characters are modelled as
alphanumerics and the underscore (the regex class `\w` restricted to the
characters the dataset uses). -/

def isWordChar (c : Char) : Bool := c.isAlphanum || c == '_'

/-- The boundary before a digit run: start of string, or a preceding
non-word character. -/
def prevBoundary : Option Char → Bool
  | none => true
  | some p => !isWordChar p

/-- Exactly five leading digits, returned with the remainder. -/
def fiveDigits : List Char → Option (List Char × List Char)
  | a :: b :: c :: d :: e :: rest =>
    if a.isDigit && b.isDigit && c.isDigit && d.isDigit && e.isDigit then
      some ([a, b, c, d, e], rest)
    else none
  | _ => none

/-- One attempt of `\b(\d{5})\b` at the current position, `prev` being the
character just before it. -/
def matchCPAt (prev : Option Char) (l : List Char) : Option String :=
  if prevBoundary prev then
    match fiveDigits l with
    | some (tok, rest) =>
      match rest with
      | [] => some (String.mk tok)
      | c :: _ => if isWordChar c then none else some (String.mk tok)
    | none => none
  else none

/-- `re.search`: try each start position from the left, first match wins. -/
def searchCP : Option Char → List Char → Option String
  | _, [] => none
  | prev, c :: rest =>
    match matchCPAt prev (c :: rest) with
    | some tok => some tok
    | none => searchCP (some c) rest

/-- Python `str()` on a cell, as shared by both extractors.  Strings pass
through; the rendering of numbers is abstracted (both extractors apply the
same `str`, and no claim depends on its exact digits). -/
def pyStr : PyVal → String
  | .na => "nan"
  | .str s => s
  | .num q => if q.den == 1 then toString q.num else toString q.num ++ "/" ++ toString q.den

/-- `extract_code_postal` of utils/cleaning.py: `None` for an absent value,
else the first 5-digit token of `str(adresse)` with word boundaries. -/
def extract_code_postal (adresse : PyVal) : Option String :=
  match adresse with
  | .na => none
  | v => searchCP none (pyStr v).data

/-- `extract_code_postal` of utils/geo.py: the identically named copy, with
the same guard, the same regex and the same result shape. -/
def geo_extract_code_postal (adresse : PyVal) : Option String :=
  match adresse with
  | .na => none
  | v => searchCP none (pyStr v).data

/-- `add_departement_from_cp_simple` on one cell (utils/cleaning.py):
`astype(str).str.extract(r"^(\d{2})")`.  An absent postal code renders as
the string "None", which has no leading digit pair, so the result is
absent. -/
def departement_of (cp : Option String) : Option String :=
  match cp with
  | none => none
  | some s =>
    match s.data with
    | a :: b :: _ => if a.isDigit && b.isDigit then some (String.mk [a, b]) else none
    | _ => none

/-! ## Coordinate consolidation (utils/cleaning.py, step 2) -/

/-- The `consolidated_longitude` step on one row, column presence explicit:
when the consolidated column exists, the primary is coerced to numeric (or
NaN when the primary column is missing) and filled from the parsed
consolidated cell; otherwise the primary column is left untouched.  The
result is the final `longitude` cell (`none` = the column itself absent). -/
def consolidateLon (hasLon hasConsLon : Bool) (lon consLon : PyVal) : Option PyVal :=
  if hasConsLon then
    some (numToPy (fillna (if hasLon then toNumeric lon else none) (toNumeric consLon)))
  else if hasLon then some lon else none

/-- The two latitude steps on one row: `consolidated_latitude` first, then
the misspelled `consolidated_lagitude`, each applied exactly as the
longitude step, the second reading the column the first produced. -/
def consolidateLat (hasLat hasConsLat hasConsLagit : Bool)
    (lat consLat consLagit : PyVal) : Option PyVal :=
  let step1 : Option PyVal :=
    if hasConsLat then
      some (numToPy (fillna (if hasLat then toNumeric lat else none) (toNumeric consLat)))
    else if hasLat then some lat else none
  if hasConsLagit then
    some (numToPy (fillna
      (match step1 with | some v => toNumeric v | none => none)
      (toNumeric consLagit)))
  else step1

/-- Consolidation as the spec words it: parse the primary cell; if absent or
unparseable, the first fallback cell that parses wins; else absent.
Written from the spec, to be compared with the code's consolidation. -/
def specConsolidate (primary : Option PyVal) (fallbacks : List PyVal) : Option ℚ :=
  match primary with
  | some v =>
    match toNumeric v with
    | some q => some q
    | none => fallbacks.findSome? toNumeric
  | none => fallbacks.findSome? toNumeric

/-! ## Persistence step (sections/data_processing.py, "Saving the cleaned
dataset")

One `try` block performs the CSV write, reports its success, performs the
parquet write and reports the sizes; the single `except` handler reports
`Save error: {e}`.  Each write is modelled by its outcome
(`Except String Unit`); the model records which writes were attempted,
the messages shown, and whether any exception escaped the step. -/

inductive SaveMsg where
  | successCsv : SaveMsg
  | infoSize : SaveMsg
  | errorSave (e : String) : SaveMsg
deriving DecidableEq, Repr

structure SaveOutcome where
  attemptedCsv : Bool
  attemptedParquet : Bool
  msgs : List SaveMsg
  uncaught : Option String
deriving DecidableEq, Repr

/-- The save step: `try: to_csv; success; to_parquet; info except e:
error(Save error)`. -/
def trySave (csvWrite parquetWrite : Except String Unit) : SaveOutcome :=
  match csvWrite with
  | .error e => ⟨true, false, [.errorSave e], none⟩
  | .ok _ =>
    match parquetWrite with
    | .error e => ⟨true, true, [.successCsv, .errorSave e], none⟩
    | .ok _ => ⟨true, true, [.successCsv, .infoSize], none⟩

/-! ## The §8 scenario row (sections/data_processing.py then
utils/cleaning.py) -/

/-- The derived fields of the canonical row the scenario observes. -/
structure ScenarioRow where
  code_postal : Option String
  departement : Option String
  puissance_kw : Option ℚ
  categorie_puissance : String
  is_dc : Bool
deriving DecidableEq, Repr

/-- The pipeline applied to one raw row having the columns
`adresse_station`, `connecteur`, `puissance_nominale`: postal-code
extraction and departement derivation (sections/data_processing.py), then
the power and AC/DC derivations of `clean_irve` (the `connecteur` column is
present, so `is_dc` is the keyword rule with `na=False`). -/
def pipelineRow (adresse : PyVal) (conn : Option String) (pui : PyVal) : ScenarioRow :=
  let cp := extract_code_postal adresse
  { code_postal := cp
    departement := departement_of cp
    puissance_kw := puissance_kw_of pui
    categorie_puissance := binPuissance (puissance_kw_of pui)
    is_dc := match conn with | some s => dcKeywordHit s | none => false }

/-! ## The claims about the outlier filter -/

/-- The C1 claim as stated: the geo rule removes exactly the rows whose
non-absent coordinates lie outside the box, rows with an absent coordinate
passing the rule. -/
def ClaimC1 : Prop :=
  ∀ rows : List CRow, filterGeo rows = rows.filter specGeoPass

/-- The C2 claim as stated: the power rule removes exactly the rows whose
power is strictly greater than 400, every other row being retained. -/
def ClaimC2 : Prop :=
  ∀ rows : List CRow, filterPower rows = rows.filter specPowerPass

/-- The C4 claim as stated, over coherent records (a record has a
connector cell only when the table has the `connecteur` column): a record
with connector text gets the keyword rule; a record without connector text
gets the power fallback (true iff power present and ≥ 24); and when the
`connecteur` column exists the power cell is never consulted. -/
def ClaimC4 : Prop :=
  ∀ (hasConnecteur hasPuissance : Bool) (conn : Option String) (pow : Option ℚ),
    (hasConnecteur = false → conn = none) →
    (∀ s, conn = some s →
      is_dc_col hasConnecteur hasPuissance conn pow = some (dcKeywordHit s)) ∧
    (conn = none →
      is_dc_col hasConnecteur hasPuissance conn pow
        = some (match pow with | some p => decide (24 ≤ p) | none => false)) ∧
    (hasConnecteur = true → ∀ pow',
      is_dc_col hasConnecteur hasPuissance conn pow'
        = is_dc_col hasConnecteur hasPuissance conn pow)

/-- The C6 claim as stated: a failure writing one output form is reported
for that form, does not block attempting (and reporting) the other form,
and no failure crashes the run. -/
def ClaimC6 : Prop :=
  ∀ (csvWrite parquetWrite : Except String Unit) (e : String),
    (csvWrite = .error e →
      (trySave csvWrite parquetWrite).attemptedParquet = true ∧
      SaveMsg.errorSave e ∈ (trySave csvWrite parquetWrite).msgs) ∧
    (parquetWrite = .error e →
      (trySave csvWrite parquetWrite).attemptedCsv = true ∧
      SaveMsg.errorSave e ∈ (trySave csvWrite parquetWrite).msgs) ∧
    (trySave csvWrite parquetWrite).uncaught = none

/-- The C3 claim as stated: the resolver equals the spec's description —
exact phase in actual-column order, loose phase in candidate priority
order. -/
def ClaimC3 : Prop :=
  ∀ columns candidates : List String,
    first_col columns candidates = specResolve columns candidates

/-- The resolver as the code actually behaves: exact phase in candidate
priority order, each candidate resolved to the last actual column whose
lowercase form equals it (dictionary overwrite); loose phase in
actual-column order, a column matching when any candidate occurs inside
its lowercase form. -/
def amendedResolve (columns candidates : List String) : Option String :=
  match candidates.findSome?
      (fun cand => columns.reverse.find? (fun c => lowerStr c == cand)) with
  | some c => some c
  | none => columns.find? (fun c => candidates.any (fun cand => looseMatch cand c))

/-- The C7 claim as stated: whatever the source columns present, the final
latitude cell exists whenever any source column does, and holds the
spec-described consolidation — primary parse, else first parsed fallback
among the present fallback columns in order, else absent. -/
def ClaimC7 : Prop :=
  ∀ (hasLat hasConsLat hasConsLagit : Bool) (lat consLat consLagit : PyVal),
    consolidateLat hasLat hasConsLat hasConsLagit lat consLat consLagit =
      (if hasLat || hasConsLat || hasConsLagit then
        some (numToPy (specConsolidate (if hasLat then some lat else none)
          ((if hasConsLat then [consLat] else []) ++
            (if hasConsLagit then [consLagit] else []))))
       else none)

/-! ## Spec-side description of the postal-code extractor -/

/-- Word boundary after a token: end of string or a non-word character. -/
def afterBoundary : List Char → Bool
  | [] => true
  | c :: _ => !isWordChar c

/-- Word boundary before position `i` of `l`, the character preceding the
whole of `l` being `prev`: start of input or a non-word character just
before. -/
def boundaryBefore (prev : Option Char) (l : List Char) : Nat → Bool
  | 0 => prevBoundary prev
  | Nat.succ j =>
    match l.get? j with
    | some p => !isWordChar p
    | none => false

/-- A standalone run of exactly five digits at position `i` of `l`: five
digits there, a word boundary on each side.  Written from the claim's
description of the extractor. -/
def standAt (prev : Option Char) (l : List Char) (i : Nat) : Option String :=
  if boundaryBefore prev l i && ((l.drop i).take 5).length == 5 &&
      ((l.drop i).take 5).all Char.isDigit && afterBoundary ((l.drop i).drop 5) then
    some (String.mk ((l.drop i).take 5))
  else none

/-- The first standalone five-digit token of `l`, positions scanned from
the left.  Written from the claim's description of the extractor. -/
def firstStandalone (l : List Char) : Option String :=
  (List.range l.length).findSome? (standAt none l)

/-! ## Claim theorems -/

/-- C1, counterexample: on the one-row table whose latitude is absent, the
geo rule removes the row, while the claimed rule ("a row with absent
latitude or longitude passes") would keep it, so the claim as stated is
false. -/
theorem C1_geo_rule_counterexample :
    filterGeo [⟨none, none, some 2⟩] = [] ∧
    List.filter specGeoPass [⟨none, none, some 2⟩] = [⟨none, none, some 2⟩] ∧
    (ClaimC1 → False) := by
  refine ⟨by with_unfolding_all decide, by with_unfolding_all decide, fun h => ?_⟩
  have h2 := h [⟨none, none, some 2⟩]
  rw [show filterGeo [(⟨none, none, some 2⟩ : CRow)] = [] from by with_unfolding_all decide,
    show List.filter specGeoPass [(⟨none, none, some 2⟩ : CRow)] = [⟨none, none, some 2⟩] from by
      with_unfolding_all decide] at h2
  exact absurd h2 (by with_unfolding_all decide)

/-- C1 (amended): the geo rule keeps exactly the rows whose latitude and
longitude are both present and inside the box `[-22,52] × [-63,55]`; in
particular a row with an absent coordinate is removed, and every surviving
row has both coordinates present and inside the box. -/
theorem C1_geo_rule_amended (rows : List CRow) :
    filterGeo rows = rows.filter (fun r =>
      match r.latitude, r.longitude with
      | some la, some lo =>
        decide (-22 ≤ la) && decide (la ≤ 52) && decide (-63 ≤ lo) && decide (lo ≤ 55)
      | _, _ => false) ∧
    ∀ r ∈ filterGeo rows, ∃ la lo, r.latitude = some la ∧ r.longitude = some lo ∧
      -22 ≤ la ∧ la ≤ 52 ∧ -63 ≤ lo ∧ lo ≤ 55 := by
  constructor
  · apply List.filter_congr
    intro r _
    rcases hla : r.latitude with _ | la <;> rcases hlo : r.longitude with _ | lo <;>
      simp [maskGeo, betweenCell, hla, hlo, Bool.and_assoc]
  · intro r hr
    rw [filterGeo, List.mem_filter] at hr
    have h := hr.2
    rw [maskGeo] at h
    rw [betweenCell.eq_def, betweenCell.eq_def] at h
    rcases hla : r.latitude with _ | la <;> rw [hla] at h
    · simp at h
    · rcases hlo : r.longitude with _ | lo <;> rw [hlo] at h
      · simp at h
      · simp only [Bool.and_eq_true, decide_eq_true_eq] at h
        exact ⟨la, lo, rfl, rfl, h.1.1, h.1.2, h.2.1, h.2.2⟩

/-- C2, counterexample: on the one-row table whose power is absent, the
power rule removes the row (NaN compares `False` against the bound), while
the claimed rule ("rows not satisfying `power > 400` are retained") would
keep it, so the claim as stated is false. -/
theorem C2_power_rule_counterexample :
    filterPower [⟨none, some 43, some 5⟩] = [] ∧
    List.filter specPowerPass [⟨none, some 43, some 5⟩] = [⟨none, some 43, some 5⟩] ∧
    (ClaimC2 → False) := by
  refine ⟨by with_unfolding_all decide, by with_unfolding_all decide, fun h => ?_⟩
  have h2 := h [⟨none, some 43, some 5⟩]
  rw [show filterPower [(⟨none, some 43, some 5⟩ : CRow)] = [] from by with_unfolding_all decide,
    show List.filter specPowerPass [(⟨none, some 43, some 5⟩ : CRow)]
        = [⟨none, some 43, some 5⟩] from by with_unfolding_all decide] at h2
  exact absurd h2 (by with_unfolding_all decide)

/-- C2 (amended): the power rule keeps exactly the rows whose power is
present and at most 400; in particular no surviving row has power above
400, every row with present power at most 400 is retained, and a row with
absent power is removed. -/
theorem C2_power_rule_amended (rows : List CRow) :
    filterPower rows = rows.filter (fun r =>
      match r.puissance_kw with
      | some p => decide (p ≤ 400)
      | none => false) ∧
    (∀ r ∈ filterPower rows, ∀ p, r.puissance_kw = some p → p ≤ 400) ∧
    (∀ r ∈ rows, ∀ p, r.puissance_kw = some p → p ≤ 400 → r ∈ filterPower rows) := by
  refine ⟨?_, ?_, ?_⟩
  · apply List.filter_congr
    intro r _
    rcases hp : r.puissance_kw with _ | p <;> simp [powerLe400, hp]
  · intro r hr p hp
    rw [filterPower, List.mem_filter] at hr
    have h := hr.2
    rw [powerLe400, hp] at h
    exact of_decide_eq_true h
  · intro r hr p hp hle
    rw [filterPower, List.mem_filter]
    exact ⟨hr, by rw [powerLe400, hp]; exact decide_eq_true hle⟩

/-- C4, counterexample: in a table that has both the `connecteur` and the
power column, a record with an absent connector cell and 50 kW gets
`is_dc = false` (`na=False`), while the claimed per-record fallback
("without connector text, `is_dc` iff power ≥ 24") demands `true`; so the
claim as stated is false. -/
theorem C4_is_dc_counterexample :
    is_dc_col true true none (some 50) = some false ∧ (ClaimC4 → False) := by
  refine ⟨by with_unfolding_all decide, fun h => ?_⟩
  have h2 := ((h true true none (some 50) (by simp)).2.1 rfl)
  rw [show is_dc_col true true none (some 50) = some false from by with_unfolding_all decide]
    at h2
  exact absurd h2 (by with_unfolding_all decide)

/-- C4 (amended): when the `connecteur` column exists, `is_dc` is the
keyword rule with an absent cell giving `false`, and the power cell is
never consulted; the power-threshold fallback (absent power giving
`false`) applies only when the `connecteur` column is absent and the power
column exists; with neither column, no `is_dc` field is produced. -/
theorem C4_is_dc_amended (hasPuissance : Bool) (conn : Option String) (pow pow' : Option ℚ) :
    (is_dc_col true hasPuissance conn pow
      = some (match conn with | some s => dcKeywordHit s | none => false)) ∧
    (is_dc_col true hasPuissance conn pow = is_dc_col true hasPuissance conn pow') ∧
    (is_dc_col false true none pow
      = some (match pow with | some p => decide (24 ≤ p) | none => false)) ∧
    (is_dc_col false false conn pow = none) := by
  refine ⟨?_, ?_, ?_, ?_⟩ <;> simp [is_dc_col]

/-- C5, counterexample: the §8 scenario row yields power category
`DC_ultra` (the canonical `dc_ultra`), not `DC_rapide` (`dc_fast`) as the
claim states — 150 kW falls in the `> 149` bin; the other four claimed
fields are as claimed. -/
theorem C5_scenario_counterexample :
    pipelineRow (.str "12 Rue de Paris, 75010 Paris") (some "CCS") (.num 150) =
      { code_postal := some "75010", departement := some "75", puissance_kw := some 150,
        categorie_puissance := "DC_ultra", is_dc := true } ∧
    ((pipelineRow (.str "12 Rue de Paris, 75010 Paris") (some "CCS")
        (.num 150)).categorie_puissance = "DC_rapide" → False) := by
  constructor <;> with_unfolding_all decide

/-- C5 (amended): the scenario raw row produces postal code "75010",
departement "75", `is_dc = true`, 150 kW, and power category `DC_ultra`
(canonical `dc_ultra`), since 150 > 149. -/
theorem C5_scenario_amended :
    pipelineRow (.str "12 Rue de Paris, 75010 Paris") (some "CCS") (.num 150) =
      { code_postal := some "75010", departement := some "75", puissance_kw := some 150,
        categorie_puissance := "DC_ultra", is_dc := true } := by
  with_unfolding_all decide

/-- C6, counterexample: when the CSV write fails, the single `try` block
skips the parquet write entirely, while the claim demands the other form
still be attempted; so the claim as stated is false. -/
theorem C6_persistence_counterexample :
    (trySave (.error "disk full") (.ok ())).attemptedParquet = false ∧
    (ClaimC6 → False) := by
  refine ⟨by decide, fun h => ?_⟩
  have h2 := ((h (.error "disk full") (.ok ()) "disk full").1 rfl).1
  rw [show (trySave (.error "disk full") (.ok ())).attemptedParquet = false from by decide] at h2
  exact absurd h2 (by decide)

/-- C6 (amended): a CSV failure is caught and reported but aborts the step
before the parquet write is attempted; a parquet failure does not undo the
already-reported CSV success and is itself reported; in every case the CSV
write is attempted and no exception escapes the step (the run does not
crash). -/
theorem C6_persistence_amended (e : String) (parquetWrite : Except String Unit) :
    trySave (.error e) parquetWrite
      = ⟨true, false, [.errorSave e], none⟩ ∧
    trySave (.ok ()) (.error e)
      = ⟨true, true, [.successCsv, .errorSave e], none⟩ ∧
    (∀ c p : Except String Unit,
      (trySave c p).uncaught = none ∧ (trySave c p).attemptedCsv = true) := by
  refine ⟨rfl, rfl, fun c p => ?_⟩
  rcases c with _ | _ <;> rcases p with _ | _ <;> exact ⟨rfl, rfl⟩

/-- C8: the cleaned power is `max 0 p` for a numeric raw value `p`, absent
for an absent or unparseable raw value, never negative, and `-5` clamps to
`0`. -/
theorem C8_power_clamp (p : ℚ) (s : String) (v : PyVal) :
    puissance_kw_of (.num p) = some (max 0 p) ∧
    puissance_kw_of .na = none ∧
    (toNumeric (.str s) = none → puissance_kw_of (.str s) = none) ∧
    (∀ q, puissance_kw_of v = some q → 0 ≤ q) ∧
    puissance_kw_of (.num (-5)) = some 0 := by
  refine ⟨rfl, rfl, ?_, ?_, ?_⟩
  · intro h
    rw [puissance_kw_of, h]
    rfl
  · intro q hq
    rw [puissance_kw_of] at hq
    rcases h : toNumeric v with _ | w
    · rw [h] at hq
      exact absurd hq (by simp)
    · rw [h] at hq
      obtain rfl : max 0 w = q := Option.some.inj (by simpa using hq)
      exact le_max_left 0 w
  · rw [puissance_kw_of]
    rw [show toNumeric (.num (-5)) = some (-5) from rfl, Option.map_some']
    rw [show max (0 : ℚ) (-5) = 0 from by norm_num]

/-- C9: the power category is given by fixed half-open bins over the
cleaned power — `AC_lente` (canonical `ac_slow`) for `≤ 7`, `AC_standard`
for `(7,22]`, `DC_moyenne` for `(22,49]`, `DC_rapide` for `(49,149]`,
`DC_ultra` for `> 149`, and `inconnu` (`unknown`) for an absent power. -/
theorem C9_power_category (x : ℚ) :
    (x ≤ 7 → binPuissance (some x) = "AC_lente") ∧
    (7 < x → x ≤ 22 → binPuissance (some x) = "AC_standard") ∧
    (22 < x → x ≤ 49 → binPuissance (some x) = "DC_moyenne") ∧
    (49 < x → x ≤ 149 → binPuissance (some x) = "DC_rapide") ∧
    (149 < x → binPuissance (some x) = "DC_ultra") ∧
    binPuissance none = "inconnu" := by
  refine ⟨fun h1 => ?_, fun h1 h2 => ?_, fun h1 h2 => ?_, fun h1 h2 => ?_, fun h1 => ?_, rfl⟩ <;>
    simp only [binPuissance]
  · rw [if_pos h1]
  · rw [if_neg (by linarith), if_pos h2]
  · rw [if_neg (by linarith), if_neg (by linarith), if_pos h2]
  · rw [if_neg (by linarith), if_neg (by linarith), if_neg (by linarith), if_pos h2]
  · rw [if_neg (by linarith), if_neg (by linarith), if_neg (by linarith),
      if_neg (by linarith)]

/-! ## Supporting lemmas for the column resolver -/

/-- Lookup after a dictionary insert: the inserted key wins, any other key
falls through. -/
theorem dictFind_lowInsert (d : List (String × String)) (k v k' : String) :
    dictFind (lowInsert d k v) k' = if k == k' then some v else dictFind d k' := by
  induction d with
  | nil =>
    by_cases h : k = k' <;> simp [lowInsert, dictFind, h]
  | cons hd tl ih =>
    obtain ⟨k0, v0⟩ := hd
    rw [lowInsert]
    by_cases h0 : k0 = k
    · subst h0
      rw [if_pos (by simp)]
      by_cases h : k0 = k'
      · subst h
        simp [dictFind]
      · simp [dictFind, h]
    · rw [if_neg (by simpa using h0)]
      by_cases h1 : k0 = k'
      · subst h1
        have h : ¬k = k0 := fun he => h0 he.symm
        simp [dictFind, h]
      · simp [dictFind, h1, ih]

/-- Lookup in the dictionary built by the fold: the last column whose
lowercase form is the key wins (later inserts overwrite earlier ones). -/
theorem dictFind_foldl (cs : List String) (d : List (String × String)) (k : String) :
    dictFind (cs.foldl (fun d c => lowInsert d (lowerStr c) c) d) k =
      match cs.reverse.find? (fun c => lowerStr c == k) with
      | some c => some c
      | none => dictFind d k := by
  induction cs generalizing d with
  | nil => simp
  | cons c cs ih =>
    rw [List.foldl_cons, ih, List.reverse_cons, List.find?_append]
    rcases h : cs.reverse.find? (fun c => lowerStr c == k) with _ | c'
    · rcases hc : lowerStr c == k with _ | _
      · simp [List.find?, hc, dictFind_lowInsert, Option.or]
      · have : lowerStr c = k := by simpa using hc
        simp [List.find?, hc, dictFind_lowInsert, Option.or, this]
    · simp [Option.or]

/-- The exact phase is the first candidate, in priority order, that the
lowercase dictionary knows. -/
theorem exactPhase_eq (columns candidates : List String) :
    exactPhase columns candidates =
      candidates.findSome? (fun cand => dictFind (lowDict columns) cand) := by
  induction candidates with
  | nil => rfl
  | cons cand rest ih =>
    rw [exactPhase, List.findSome?]
    rcases h : dictFind (lowDict columns) cand with _ | c <;> simp [h, ih]

/-- C3, counterexample: with actual columns `[latitude, y_latitude]` and
the latitude candidate list `[y_latitude, latitude, lat, ylat]`, the code
returns `y_latitude` (first matching candidate), while the claimed
actual-column-order exact phase returns `latitude`; so the claim as stated
is false. -/
theorem C3_first_col_counterexample :
    first_col ["latitude", "y_latitude"] ["y_latitude", "latitude", "lat", "ylat"]
      = some "y_latitude" ∧
    specResolve ["latitude", "y_latitude"] ["y_latitude", "latitude", "lat", "ylat"]
      = some "latitude" ∧
    (ClaimC3 → False) := by
  refine ⟨by decide, by decide, fun h => ?_⟩
  have h2 := h ["latitude", "y_latitude"] ["y_latitude", "latitude", "lat", "ylat"]
  rw [show first_col ["latitude", "y_latitude"] ["y_latitude", "latitude", "lat", "ylat"]
      = some "y_latitude" from by decide,
    show specResolve ["latitude", "y_latitude"] ["y_latitude", "latitude", "lat", "ylat"]
      = some "latitude" from by decide] at h2
  exact absurd h2 (by decide)

/-- C3 (amended): the resolver's exact phase runs in candidate priority
order, a candidate resolving to the last actual column whose lowercased
name equals it; only if no candidate matches exactly does the loose phase
run, in actual-column order, returning the first column whose lowercased
name contains any candidate; otherwise the result is absent. -/
theorem C3_first_col_amended (columns candidates : List String) :
    first_col columns candidates = amendedResolve columns candidates := by
  rw [first_col, amendedResolve, exactPhase_eq]
  have hdict : ∀ cand, dictFind (lowDict columns) cand
      = columns.reverse.find? (fun c => lowerStr c == cand) := by
    intro cand
    rw [lowDict, dictFind_foldl]
    rcases h : columns.reverse.find? (fun c => lowerStr c == cand) with _ | c <;> simp [dictFind]
  rw [show (fun cand => dictFind (lowDict columns) cand)
      = (fun cand => columns.reverse.find? (fun c => lowerStr c == cand)) from
    funext hdict]
  rfl

/-! ## Supporting lemmas for coordinate consolidation -/

/-- Writing a numeric-or-NaN cell back and re-coercing it is the identity. -/
theorem toNumeric_numToPy (x : Option ℚ) : toNumeric (numToPy x) = x := by
  rcases x with _ | q <;> rfl

/-- `fillna` chains associate. -/
theorem fillna_assoc (a b c : Option ℚ) : fillna (fillna a b) c = fillna a (fillna b c) := by
  rcases a with _ | x <;> rfl

/-- The spec-side consolidation as a `fillna` of the primary parse with the
fallback scan. -/
theorem specConsolidate_eq (p : Option PyVal) (fbs : List PyVal) :
    specConsolidate p fbs = fillna (p.bind toNumeric) (fbs.findSome? toNumeric) := by
  rcases p with _ | v
  · rfl
  · rcases h : toNumeric v with _ | q <;> simp [specConsolidate, fillna, h]

/-- A fallback scan over one cell. -/
theorem findSome?_single (f : PyVal → Option ℚ) (x : PyVal) :
    [x].findSome? f = f x := by
  rcases h : f x with _ | q <;> simp [List.findSome?, h]

/-- A fallback scan over two cells is a `fillna`. -/
theorem findSome?_pair (f : PyVal → Option ℚ) (x y : PyVal) :
    [x, y].findSome? f = fillna (f x) (f y) := by
  rcases h : f x with _ | q <;> rcases h2 : f y with _ | q2 <;>
    simp [List.findSome?, h, h2, fillna]

/-- C7, counterexample: in a table with a raw `latitude` column but no
consolidated column, the unparseable cell "abc" is left untouched by
`clean_irve` — the claimed consolidation would make it absent; so the
claim as stated (over every row of every record set) is false. -/
theorem C7_consolidation_counterexample :
    consolidateLat true false false (.str "abc") .na .na = some (.str "abc") ∧
    specConsolidate (some (.str "abc")) [] = none ∧
    (ClaimC7 → False) := by
  refine ⟨by with_unfolding_all decide, by with_unfolding_all decide, fun h => ?_⟩
  have h2 := h true false false (.str "abc") .na .na
  rw [show consolidateLat true false false (.str "abc") .na .na = some (.str "abc") from by
      with_unfolding_all decide] at h2
  exact absurd h2 (by with_unfolding_all decide)

/-- C7 (amended): when at least one consolidated column is present, every
row's final latitude is exactly the spec consolidation — primary parse,
else the present fallbacks in order (`consolidated_latitude` before the
misspelled `consolidated_lagitude`, an ordinary candidate), else absent,
with parse failures coerced; the longitude column behaves the same with
its single fallback; when no consolidated column is present the primary
cell is left untouched, raw and unparsed. -/
theorem C7_consolidation_amended (hasPrim : Bool) (prim fb1 fb2 : PyVal) :
    (∀ hasConsLat hasConsLagit : Bool, (hasConsLat || hasConsLagit) = true →
      consolidateLat hasPrim hasConsLat hasConsLagit prim fb1 fb2 =
        some (numToPy (specConsolidate (if hasPrim then some prim else none)
          ((if hasConsLat then [fb1] else []) ++
            (if hasConsLagit then [fb2] else []))))) ∧
    (consolidateLat hasPrim false false prim fb1 fb2
      = (if hasPrim then some prim else none)) ∧
    (consolidateLon hasPrim true prim fb1 =
      some (numToPy (specConsolidate (if hasPrim then some prim else none) [fb1]))) ∧
    (consolidateLon hasPrim false prim fb1 = (if hasPrim then some prim else none)) := by
  have hbind : (if hasPrim then some prim else none).bind toNumeric
      = (if hasPrim then toNumeric prim else none) := by
    rcases hasPrim with _ | _ <;> rfl
  refine ⟨?_, ?_, ?_, ?_⟩
  · intro hasConsLat hasConsLagit hone
    rcases hasConsLat with _ | _ <;> rcases hasConsLagit with _ | _
    · exact absurd hone (by decide)
    · rcases hasPrim with _ | _ <;>
        simp [consolidateLat, specConsolidate_eq, hbind, findSome?_single, toNumeric_numToPy]
    · rcases hasPrim with _ | _ <;>
        simp [consolidateLat, specConsolidate_eq, hbind, findSome?_single, toNumeric_numToPy]
    · rcases hasPrim with _ | _ <;>
        simp [consolidateLat, specConsolidate_eq, hbind, findSome?_pair, toNumeric_numToPy,
          fillna_assoc]
  · rcases hasPrim with _ | _ <;> simp [consolidateLat]
  · simp [consolidateLon, specConsolidate_eq, hbind, findSome?_single]
  · rcases hasPrim with _ | _ <;> simp [consolidateLon]

/-- `fiveDigits` through `take`/`drop`. -/
theorem fiveDigits_eq (l : List Char) :
    fiveDigits l =
      if ((l.take 5).length == 5 && (l.take 5).all Char.isDigit) = true then
        some (l.take 5, l.drop 5)
      else none := by
  rcases l with _ | ⟨a, _ | ⟨b, _ | ⟨c, _ | ⟨d, _ | ⟨e, rest⟩⟩⟩⟩⟩ <;>
    simp [fiveDigits, Bool.and_assoc]

/-- One regex attempt agrees with the standalone test at position 0. -/
theorem matchCPAt_eq_standAt (prev : Option Char) (l : List Char) :
    matchCPAt prev l = standAt prev l 0 := by
  rw [matchCPAt, standAt, fiveDigits_eq]
  simp only [List.drop_zero]
  rw [show boundaryBefore prev l 0 = prevBoundary prev from rfl]
  rcases hb : prevBoundary prev with _ | _
  · rw [Bool.false_and, Bool.false_and, Bool.false_and]
    rfl
  · rw [Bool.true_and]
    rcases hc : ((l.take 5).length == 5 && (l.take 5).all Char.isDigit) with _ | _
    · rw [Bool.false_and]
      rfl
    · rw [Bool.true_and]
      rcases hd : l.drop 5 with _ | ⟨c0, t0⟩
      · rfl
      · rw [show afterBoundary (c0 :: t0) = !isWordChar c0 from rfl]
        rcases hw : isWordChar c0 with _ | _ <;> simp [hw]

/-- Shifting the standalone test one character to the right. -/
theorem standAt_shift (prev : Option Char) (c : Char) (t : List Char) (i : Nat) :
    standAt prev (c :: t) (i + 1) = standAt (some c) t i := by
  have hbb : boundaryBefore prev (c :: t) (i + 1) = boundaryBefore (some c) t i := by
    rcases i with _ | j
    · simp [boundaryBefore, prevBoundary]
    · simp [boundaryBefore, List.get?]
  rw [standAt, standAt, hbb]
  simp [List.drop_succ_cons]

/-- The left-to-right regex search is the first standalone five-digit
token of the remaining input. -/
theorem searchCP_eq (l : List Char) (prev : Option Char) :
    searchCP prev l = (List.range l.length).findSome? (standAt prev l) := by
  induction l generalizing prev with
  | nil => rfl
  | cons c t ih =>
    rw [searchCP, matchCPAt_eq_standAt]
    rw [show (c :: t).length = t.length + 1 from rfl, List.range_succ_eq_map,
      List.findSome?]
    rcases h0 : standAt prev (c :: t) 0 with _ | tok
    · rw [List.findSome?_map]
      rw [show ((standAt prev (c :: t)) ∘ Nat.succ) = standAt (some c) t from
        funext (fun i => standAt_shift prev c t i)]
      exact ih (some c)
    · rfl

/-- A successful search yields five digits. -/
theorem searchCP_shape (l : List Char) (prev : Option Char) (t : String)
    (h : searchCP prev l = some t) : t.length = 5 ∧ t.data.all Char.isDigit = true := by
  induction l generalizing prev with
  | nil => exact absurd h (by rw [searchCP]; simp)
  | cons c rest ih =>
    rw [searchCP] at h
    rcases hm : matchCPAt prev (c :: rest) with _ | tok
    · rw [hm] at h
      exact ih (some c) h
    · rw [hm] at h
      obtain rfl : tok = t := Option.some.inj h
      rw [matchCPAt_eq_standAt, standAt] at hm
      split at hm
      next hcond =>
        obtain rfl : String.mk (((c :: rest).drop 0).take 5) = tok := Option.some.inj hm
        rw [Bool.and_eq_true, Bool.and_eq_true, Bool.and_eq_true] at hcond
        exact ⟨by simpa using hcond.1.1.2, hcond.1.2⟩
      next hcond => exact absurd hm (by simp)

/-- C10: the postal-code extractors of utils/geo.py and utils/cleaning.py
agree on every input (absent, string or number); on an absent input both
return absent, on a string both return its first standalone five-digit
token bounded by word boundaries (absent when there is none), and any
returned token is exactly five digits. -/
theorem C10_extract_code_postal_equiv (v : PyVal) (s : String) :
    geo_extract_code_postal v = extract_code_postal v ∧
    extract_code_postal .na = none ∧
    extract_code_postal (.str s) = firstStandalone s.data ∧
    (∀ t, extract_code_postal v = some t →
      t.length = 5 ∧ t.data.all Char.isDigit = true) := by
  refine ⟨?_, rfl, ?_, ?_⟩
  · rcases v with _ | s' | q <;> rfl
  · show searchCP none (pyStr (.str s)).data = firstStandalone s.data
    rw [show (pyStr (.str s)).data = s.data from rfl, searchCP_eq]
    rfl
  · intro t ht
    rcases v with _ | s' | q
    · exact absurd ht (by simp [extract_code_postal])
    · exact searchCP_shape (pyStr (.str s')).data none t ht
    · exact searchCP_shape (pyStr (.num q)).data none t ht

end IRVE
